import Mathlib

/-!
Verification development for the `copr-to-gh-release` synchronizer
(`src/copr-to-gh-release.py`).  The script's pure core — the build-list
scan, the artifact-set construction, the tag-to-version mapping and the
per-tag release state machine — is embedded shallowly below; network
responses (build-list pages, reachability probes, `results.json`
manifests, `gh release view` outcomes) are passed in as explicit
oracles, so every definition is executable on concrete inputs.
-/

/-- Errors a Python program can raise; only the variants the embedded
script can actually produce are modelled. -/
inductive PyErr where
  | typeError
  | indexError
  | nameError (missing : String)
  | reraisedProcessError (output : String)
deriving DecidableEq

/-- Characters after the first colon of a character list: models the
slice `ver[ver.index(":") + 1:]` of `get_version` (source line 81). -/
def afterColon : List Char → List Char
  | [] => []
  | c :: cs => if c = ':' then cs else afterColon cs

/-- Model of posixpath `basename`: the part after the last slash (the
whole string when no slash occurs). -/
def pyBasename (s : String) : String :=
  String.mk ((s.data.reverse.takeWhile (fun c => !(c = '/'))).reverse)

/-- Model of posixpath `dirname`: everything before the last slash, with
trailing slashes stripped unless the head is made of slashes only. -/
def pyDirname (s : String) : String :=
  let headRev := s.data.reverse.dropWhile (fun c => !(c = '/'))
  if headRev = [] then ""
  else
    let stripped := headRev.dropWhile (fun c => c = '/')
    if stripped = [] then String.mk headRev.reverse else String.mk stripped.reverse

/-- Model of the pair `s[:s.rindex(sep)]`, `s[s.rindex(sep)+1:]`; the
source applies it only to chroot names, which always contain the
separator (on a separator-free string `rindex` would raise instead). -/
def rsplitLast (sep : Char) (s : String) : String × String :=
  let rev := s.data.reverse
  (String.mk (((rev.dropWhile (fun c => !(c = sep))).drop 1).reverse),
   String.mk ((rev.takeWhile (fun c => !(c = sep))).reverse))

/-- Model of Python `str.strip()` with no arguments: removes leading and
trailing whitespace. -/
def pyStrip (s : String) : String :=
  String.mk (((s.data.dropWhile Char.isWhitespace).reverse.dropWhile Char.isWhitespace).reverse)

/-- Model of the inner helper `get_version` (source lines 76-82):
optionally strips an RPM epoch prefix up to the first colon, returning
falsy (empty) versions unchanged. -/
def getVersion (ignoreEpoch : Bool) (ver : String) : String :=
  if ver = "" then ver
  else if ignoreEpoch = true ∧ ':' ∈ ver.data then String.mk (afterColon ver.data)
  else ver

/-- The `source_package` object of a COPR build-list entry; `name` and
`version` use the empty string for JSON null (the source only tests
them for truthiness or equality). -/
structure SourcePackage where
  name : String
  version : String
  url : String
deriving DecidableEq

/-- One entry of the COPR `build/list` response, restricted to the
fields the script reads; `ended_on` is `none` for JSON null. -/
structure Build where
  id : Nat
  state : String
  source_package : SourcePackage
  ended_on : Option Nat
  chroots : List String
  repo_url : String
deriving DecidableEq

/-- The per-build dictionary `bm` assembled in `get_builds` (source
lines 99-107). -/
structure BuildRecord where
  id : Nat
  dir_id : String
  version : String
  ended_on : Nat
  source_rpm : String
  package_name : String
  repo_url : String
deriving DecidableEq

/-- Assembly of the record `bm` from a build; at the point the source
builds it the non-terminal check has passed, so `ended_on` is a nonzero
timestamp and the `getD 0` default is never exercised. -/
def mkRecord (ignoreEpoch : Bool) (b : Build) : BuildRecord :=
  { id := b.id
    dir_id := pyBasename (pyDirname b.source_package.url)
    version := getVersion ignoreEpoch b.source_package.version
    ended_on := b.ended_on.getD 0
    source_rpm := b.source_package.url
    package_name := b.source_package.name
    repo_url := b.repo_url }

/-- The command-line derived configuration `get_builds` reads. -/
structure Config where
  package_name : String
  ignore_epoch : Bool
  wait_build : Bool

/-- A build is non-terminal when its state is one of the four in-flight
states or its `ended_on` is falsy (null or zero), source lines 85-86. -/
def nonTerminalBuild (b : Build) : Bool :=
  decide (b.state = "pending" ∨ b.state = "importing" ∨ b.state = "starting" ∨
    b.state = "running" ∨ b.ended_on = none ∨ b.ended_on = some 0)

/-- The walrus name filter of source lines 72-74: a build is skipped
when its package name is truthy and differs from the configured one. -/
def skipByName (cfg : Config) (b : Build) : Bool :=
  decide (b.source_package.name ≠ "" ∧ b.source_package.name ≠ cfg.package_name)

abbrev ArchMap := List (String × BuildRecord)

abbrev BMap := List (String × ArchMap)

/-- First-match association lookup, modelling Python dict indexing for
the insertion-ordered maps built below. -/
def alookup {β : Type} : List (String × β) → String → Option β
  | [], _ => none
  | (k, v) :: rest, key => if k = key then some v else alookup rest key

/-- Model of `d.setdefault(key, dflt)` followed by in-place mutation of
the looked-up value: applies `f` to the existing value, or to `dflt`,
appending a fresh entry in insertion order when the key is new. -/
def updAssoc {β : Type} : List (String × β) → String → β → (β → β) → List (String × β)
  | [], key, dflt, f => [(key, f dflt)]
  | (k, v) :: rest, key, dflt, f =>
    if k = key then (k, f v) :: rest else (k, v) :: updAssoc rest key dflt f

/-- Model of source lines 113-117: `version_arches.setdefault(arch, bm)`
keeping the existing record unless the new one ended strictly later. -/
def setdefaultMax : ArchMap → String → BuildRecord → ArchMap
  | [], arch, bm => [(arch, bm)]
  | (a, ex) :: rest, arch, bm =>
    if a = arch then (a, if ex.ended_on < bm.ended_on then bm else ex) :: rest
    else (a, ex) :: setdefaultMax rest arch bm

/-- Recording one accepted build under its version for all its chroots
(source lines 111-117). -/
def insertArches (st : BMap) (version : String) (arches : List String) (bm : BuildRecord) :
    BMap :=
  updAssoc st version [] (fun va => arches.foldl (fun va a => setdefaultMax va a bm) va)

/-- Two-level lookup into the version → architecture → record map. -/
def lookup2 (st : BMap) (v a : String) : Option BuildRecord :=
  match alookup st v with
  | none => none
  | some va => alookup va a

/-- One pass of the `for build in builds` loop of `get_builds` (source
lines 68-117) over a fetched build list, threading the metadata map;
the second component is the `retry` flag, set when a non-terminal build
is met while waiting is configured (the `break` on line 94).  The
reachability probe `check_url_exists` is the oracle `exi`. -/
def scanBuilds (cfg : Config) (exi : String → Bool) : List Build → BMap → BMap × Bool
  | [], st => (st, false)
  | b :: rest, st =>
    if b.state = "failed" then scanBuilds cfg exi rest st
    else if skipByName cfg b = true then scanBuilds cfg exi rest st
    else if nonTerminalBuild b = true then
      if cfg.wait_build = true then (st, true) else scanBuilds cfg exi rest st
    else if exi b.source_package.url = false then scanBuilds cfg exi rest st
    else
      scanBuilds cfg exi rest
        (insertArches st (mkRecord cfg.ignore_epoch b).version b.chroots
          (mkRecord cfg.ignore_epoch b))

/-- Whether a pass over a build list hits the retry `break`; this
depends only on the builds and the configuration, never on the metadata
accumulated so far. -/
def scanRetry (cfg : Config) : List Build → Bool
  | [] => false
  | b :: rest =>
    if b.state = "failed" then scanRetry cfg rest
    else if skipByName cfg b = true then scanRetry cfg rest
    else if nonTerminalBuild b = true then
      if cfg.wait_build = true then true else scanRetry cfg rest
    else scanRetry cfg rest

/-- The builds a single pass accepts (reaches source line 111 for), in
scan order; the pass stops at a retry `break`. -/
def scanAccepted (cfg : Config) (exi : String → Bool) : List Build → List Build
  | [] => []
  | b :: rest =>
    if b.state = "failed" then scanAccepted cfg exi rest
    else if skipByName cfg b = true then scanAccepted cfg exi rest
    else if nonTerminalBuild b = true then
      if cfg.wait_build = true then [] else scanAccepted cfg exi rest
    else if exi b.source_package.url = false then scanAccepted cfg exi rest
    else b :: scanAccepted cfg exi rest

/-- The `while retry` loop of `get_builds` (source lines 58-119): each
iteration scans one fetched build list — successive responses of the
listing API are the scripted `fetches` — and on retry the next response
is consumed with the accumulated metadata retained; on completion the
final map is returned together with the list scanned last.  `none`
means the loop would fetch again but the script of responses is
exhausted. -/
def getBuildsLoop (cfg : Config) (exi : String → Bool) :
    List (List Build) → BMap → Option (BMap × List Build)
  | [], _ => none
  | f :: rest, st =>
    match scanBuilds cfg exi f st with
    | (st2, true) => getBuildsLoop cfg exi rest st2
    | (st2, false) => some (st2, f)

/-- `get_builds` started from the empty metadata dictionary (source line
57). -/
def getBuilds (cfg : Config) (exi : String → Bool) (fetches : List (List Build)) :
    Option (BMap × List Build) :=
  getBuildsLoop cfg exi fetches []

/-- All builds accepted over the whole run, in order. -/
def loopAccepted (cfg : Config) (exi : String → Bool) : List (List Build) → List Build
  | [] => []
  | f :: rest =>
    scanAccepted cfg exi f ++
      (if scanRetry cfg f = true then loopAccepted cfg exi rest else [])

/-- One entry of a per-build `results.json` manifest; `epoch` uses zero
for JSON null (the source only tests truthiness and compares with 1). -/
structure BuildResult where
  name : String
  version : String
  release : String
  epoch : Nat
  arch : String
deriving DecidableEq

/-- Model of `get_build_dir_name` (source lines 123-124). -/
def getBuildDirName (bm : BuildRecord) (platformArch : String) : String :=
  bm.repo_url ++ "/" ++ platformArch ++ "/" ++ bm.dir_id ++ "-" ++ bm.package_name

/-- Model of `get_arch_url` (source lines 126-133): expected display
name and download URL for a non-source build result. -/
def getArchUrl (bm : BuildRecord) (platformArch : String) (r : BuildResult) : String × String :=
  let platform := (rsplitLast '-' platformArch).1
  let rpmName :=
    (if 1 < r.epoch then toString r.epoch ++ ":" else "") ++
      r.name ++ "-" ++ r.version ++ "-" ++ r.release ++ "." ++ r.arch ++ ".rpm"
  (platform ++ "-" ++ rpmName, getBuildDirName bm platformArch ++ "/" ++ rpmName)

/-- Python `set.add` on the artifact set: inserts a (filename, URL) pair
unless that same pair is already an element. -/
def setAdd (files : List (String × String)) (p : String × String) : List (String × String) :=
  if p ∈ files then files else files ++ [p]

/-- The artifact-set construction of source lines 144-159: for each
version, the source package of every retained per-architecture record
plus every reachable non-source build result; `manifest` is the oracle
standing for `get_build_results`, `exi` for `check_url_exists`. -/
def versionFiles (exi : String → Bool) (manifest : BuildRecord → String → List BuildResult)
    (bmData : BMap) : List (String × List (String × String)) :=
  bmData.foldl
    (fun out kb =>
      let files :=
        kb.2.foldl
          (fun files ab =>
            (manifest ab.2 ab.1).foldl
              (fun files r =>
                if r.arch = "src" then files
                else if exi (getArchUrl ab.2 ab.1 r).2 = true then
                  setAdd files (getArchUrl ab.2 ab.1 r)
                else files)
              (setAdd files (pyBasename ab.2.source_rpm, ab.2.source_rpm)))
          []
      if files = [] then out else out ++ [(kb.1, files)])
    []

/-- Abstract syntax of the fragment of Python regular expressions the
tool needs: enough to interpret a compiled `--tag-to-version-re`
pattern such as the documented `^v(.*)$`. -/
inductive Re where
  | eps : Re
  | ch : Char → Re
  | dot : Re
  | seq : Re → Re → Re
  | alt : Re → Re → Re
  | star : Re → Re
  | group : Nat → Re → Re
  | bos : Re
  | eol : Re
deriving DecidableEq

/-- Node count of a pattern, used to provision matcher fuel. -/
def reSize : Re → Nat
  | Re.eps => 1
  | Re.ch _ => 1
  | Re.dot => 1
  | Re.seq a b => reSize a + reSize b + 1
  | Re.alt a b => reSize a + reSize b + 1
  | Re.star a => reSize a + 1
  | Re.group _ a => reSize a + 1
  | Re.bos => 1
  | Re.eol => 1

/-- Largest group number occurring in a pattern. -/
def maxGroupIndex : Re → Nat
  | Re.eps => 0
  | Re.ch _ => 0
  | Re.dot => 0
  | Re.seq a b => max (maxGroupIndex a) (maxGroupIndex b)
  | Re.alt a b => max (maxGroupIndex a) (maxGroupIndex b)
  | Re.star a => maxGroupIndex a
  | Re.group n a => max n (maxGroupIndex a)
  | Re.bos => 0
  | Re.eol => 0

/-- Recording a captured group (latest capture of a number wins on
lookup). -/
def gset (g : List (Nat × String)) (n : Nat) (v : String) : List (Nat × String) :=
  (n, v) :: g

/-- First-match lookup of a captured group. -/
def groupLookup : List (Nat × String) → Nat → Option String
  | [], _ => none
  | (k, v) :: rest, n => if k = n then some v else groupLookup rest n

/-- Backtracking matcher in continuation style, modelling Python `re`
semantics on the fragment above: alternation prefers its left branch,
repetition is greedy (longest first) and refuses empty-progress
iterations, `dot` excludes newline, `bos` matches only at offset zero
and `eol` at the end of the input or before a final newline.  `fuel`
bounds the recursion; the wrapper below provisions enough of it for
every match the tool performs. -/
def reMatchAux : Nat → Re → List Char → Nat → List (Nat × String) →
    (List Char → Nat → List (Nat × String) → Option (List (Nat × String))) →
    Option (List (Nat × String))
  | 0, _, _, _, _, _ => none
  | fuel + 1, r, s, pos, g, k =>
    match r with
    | Re.eps => k s pos g
    | Re.ch c =>
      match s with
      | [] => none
      | x :: xs => if x = c then k xs (pos + 1) g else none
    | Re.dot =>
      match s with
      | [] => none
      | x :: xs => if x = '\n' then none else k xs (pos + 1) g
    | Re.seq r1 r2 =>
      reMatchAux fuel r1 s pos g (fun s2 p2 g2 => reMatchAux fuel r2 s2 p2 g2 k)
    | Re.alt r1 r2 =>
      match reMatchAux fuel r1 s pos g k with
      | some res => some res
      | none => reMatchAux fuel r2 s pos g k
    | Re.star r1 =>
      match reMatchAux fuel r1 s pos g
          (fun s2 p2 g2 =>
            if pos < p2 then reMatchAux fuel (Re.star r1) s2 p2 g2 k else none) with
      | some res => some res
      | none => k s pos g
    | Re.group n r1 =>
      reMatchAux fuel r1 s pos g
        (fun s2 p2 g2 => k s2 p2 (gset g2 n (String.mk (s.take (p2 - pos)))))
    | Re.bos => if pos = 0 then k s pos g else none
    | Re.eol => if s = [] ∨ s = ['\n'] then k s pos g else none

/-- Model of `pattern.match(tag)`: anchored at the start of the string
only, succeeding on any prefix match; returns the captured groups, with
group 0 bound to the whole consumed prefix, or `none` when the pattern
does not match. -/
def pyMatch (r : Re) (s : String) : Option (List (Nat × String)) :=
  reMatchAux ((reSize r + 1) * (s.length + 2) + 2) r s.data 0 []
    (fun _ p2 g2 => some (gset g2 0 (String.mk (s.data.take p2))))

/-- The compiled form of the documented example pattern `^v(.*)$`. -/
def reVCap : Re :=
  Re.seq Re.bos (Re.seq (Re.ch 'v') (Re.seq (Re.group 1 (Re.star Re.dot)) Re.eol))

/-- Model of `normalize_tag` (source lines 164-167): without a pattern
the tag is returned verbatim; with one, `match(tag)[1]` either yields
capture group 1 (possibly Python `None` when the group did not take
part in the match), raises TypeError when the pattern does not match
(`None[1]`), or raises IndexError when the pattern has no group 1. -/
def normalizeTag (reArg : Option Re) (tag : String) : Except PyErr (Option String) :=
  match reArg with
  | none => Except.ok (some tag)
  | some r =>
    match pyMatch r tag with
    | none => Except.error PyErr.typeError
    | some g =>
      match groupLookup g 1 with
      | some v => Except.ok (some v)
      | none =>
        if 1 ≤ maxGroupIndex r then Except.ok none else Except.error PyErr.indexError

/-- Outcome of the `gh release view` probe: success, or a
`CalledProcessError` carrying the captured (stdout+stderr) output. -/
inductive ViewResult where
  | success : ViewResult
  | failed : String → ViewResult

/-- Externally visible calls the per-tag loop body makes. -/
inductive Effect where
  | releaseView (tag : String)
  | releaseCreate (tag : String)
  | download (fileName : String) (url : String)
  | releaseUpload (tag : String) (uploadArgs : List String)
deriving DecidableEq

/-- How the processing of one tag ends. -/
inductive TagResult where
  | done
  | exitCode (code : Nat)
  | pyError (e : PyErr)
deriving DecidableEq

/-- Discriminator for download effects. -/
def Effect.isDownload : Effect → Bool
  | Effect.download _ _ => true
  | _ => false

/-- Discriminator for upload effects. -/
def Effect.isUpload : Effect → Bool
  | Effect.releaseUpload _ _ => true
  | _ => false

/-- Source line 208: a `gh release view` failure is re-raised exactly
when its output is truthy and does not strip to the exact text
"release not found". -/
def releaseViewReraise (output : String) : Bool :=
  decide (output ≠ "" ∧ pyStrip output ≠ "release not found")

/-- The names bound at module scope of the script: its imports (source
lines 2-12) and top-level definitions.  `sys` is absent — the script
never imports it — and `sys` is not a Python builtin, so evaluating
`sys.exit(100)` on source line 201 raises NameError if reached. -/
def moduleScopeNames : List String :=
  ["argparse", "re", "tempfile", "ThreadPoolExecutor", "makedirs", "dirname", "basename",
   "pprint", "run", "exe", "CalledProcessError", "STDOUT", "sleep", "requests",
   "parser", "main"]

/-- The variables of `main` that the per-tag loop body reads. -/
structure MainCtx where
  tagArg : Option String
  clobber_assets : Bool
  tagToVersionRe : Option Re
  tmpDir : String
  versionFilesMap : List (String × List (String × String))

/-- Truthiness of the optional `--tag` argument. -/
def pyTruthyOpt (s : Option String) : Bool :=
  match s with
  | none => false
  | some v => decide (v ≠ "")

/-- The no-artifact branch of source lines 198-202: report and continue,
except that for an explicitly supplied tag the code runs
`sys.exit(100)` — which raises NameError, as `sys` is not bound in any
enclosing scope. -/
def noAssetOutcome (ctx : MainCtx) : TagResult :=
  if pyTruthyOpt ctx.tagArg = true then
    if moduleScopeNames.contains "sys" = true then TagResult.exitCode 100
    else TagResult.pyError (PyErr.nameError "sys")
  else TagResult.done

/-- The upload argument for one artifact, source line 184:
`tmpdir/version/filename#filename`. -/
def uploadArg (ctx : MainCtx) (v fileName : String) : String :=
  ctx.tmpDir ++ "/" ++ v ++ "/" ++ fileName ++ "#" ++ fileName

/-- The body of the per-tag loop of `main` (source lines 192-221): the
externally visible calls made for one tag and how its processing ends;
`view` is the oracle standing for the `gh release view` invocation. -/
def processTag (ctx : MainCtx) (view : String → ViewResult) (currentTag : String) :
    List Effect × TagResult :=
  match normalizeTag ctx.tagToVersionRe currentTag with
  | Except.error e => ([], TagResult.pyError e)
  | Except.ok rpmVersion =>
    match rpmVersion with
    | none => ([], noAssetOutcome ctx)
    | some v =>
      match alookup ctx.versionFilesMap v with
      | none => ([], noAssetOutcome ctx)
      | some files =>
        match view currentTag with
        | ViewResult.failed out =>
          if releaseViewReraise out = true then
            ([Effect.releaseView currentTag],
             TagResult.pyError (PyErr.reraisedProcessError out))
          else
            ([Effect.releaseView currentTag, Effect.releaseCreate currentTag] ++
               files.map (fun fu => Effect.download fu.1 fu.2) ++
               [Effect.releaseUpload currentTag
                 (files.map (fun fu => uploadArg ctx v fu.1))],
             TagResult.done)
        | ViewResult.success =>
          if ctx.clobber_assets = true then
            ([Effect.releaseView currentTag] ++
               files.map (fun fu => Effect.download fu.1 fu.2) ++
               [Effect.releaseUpload currentTag
                 (files.map (fun fu => uploadArg ctx v fu.1))],
             TagResult.done)
          else ([Effect.releaseView currentTag], TagResult.done)

/-- The parsed argument namespace, mirroring the ten `add_argument`
declarations of source lines 16-33 (required string options start out
absent; defaults as declared: `fetch_tags` and `clobber_assets` false,
`ignore_epoch` and `wait_build` true). -/
structure Args where
  owner_name : Option String
  project_name : Option String
  package_name : Option String
  tag_to_version_re : Option String
  tag : Option String
  fetch_tags : Bool
  clobber_assets : Bool
  ignore_epoch : Bool
  wait_build : Bool
deriving DecidableEq

/-- The namespace before any token is consumed: every declared default. -/
def initArgs : Args :=
  { owner_name := none
    project_name := none
    package_name := none
    tag_to_version_re := none
    tag := none
    fetch_tags := false
    clobber_assets := false
    ignore_epoch := true
    wait_build := true }

/-- Token consumption for the declared options: value options take the
following token, `store_true` flags set their destination true,
`store_false` flags set it false (`--no-ignore-epoch` is the only one),
and an unrecognized token is a parse error. -/
def consumeArgs : List String → Args → Option Args
  | [], a => some a
  | t :: rest, a =>
    if t = "--copr-owner-name" then
      match rest with
      | v :: rest2 => consumeArgs rest2 { a with owner_name := some v }
      | [] => none
    else if t = "--copr-project-name" then
      match rest with
      | v :: rest2 => consumeArgs rest2 { a with project_name := some v }
      | [] => none
    else if t = "--copr-package-name" then
      match rest with
      | v :: rest2 => consumeArgs rest2 { a with package_name := some v }
      | [] => none
    else if t = "--tag-to-version-re" then
      match rest with
      | v :: rest2 => consumeArgs rest2 { a with tag_to_version_re := some v }
      | [] => none
    else if t = "--tag" then
      match rest with
      | v :: rest2 => consumeArgs rest2 { a with tag := some v }
      | [] => none
    else if t = "--fetch-tags" then consumeArgs rest { a with fetch_tags := true }
    else if t = "--clobber-assets" then consumeArgs rest { a with clobber_assets := true }
    else if t = "--no-ignore-epoch" then consumeArgs rest { a with ignore_epoch := false }
    else if t = "--wait-build" then consumeArgs rest { a with wait_build := true }
    else none

/-- The declared argument parser: consume every token, then enforce the
three `required=True` options. -/
def parseArgs (argv : List String) : Option Args :=
  match consumeArgs argv initArgs with
  | none => none
  | some a =>
    if a.owner_name.isSome = true ∧ a.project_name.isSome = true ∧
        a.package_name.isSome = true then some a
    else none

theorem afterColon_append (p r : List Char) (hp : ':' ∉ p) :
    afterColon (p ++ ':' :: r) = r := by
  induction p with
  | nil => simp [afterColon]
  | cons c cs ih =>
    simp only [List.cons_append, afterColon]
    rw [if_neg (fun h : c = ':' => hp (by rw [h]; exact List.mem_cons_self _ _))]
    exact ih fun h => hp (List.mem_cons_of_mem _ h)

/-- C9: with ignore-epoch enabled, a version containing a colon resolves
to the substring after the epoch prefix (the part after the first
colon), as in "7:1.2.3" resolving to "1.2.3"; with ignore-epoch
disabled or no colon present the version is unchanged. -/
theorem c9_epoch_stripping (p r v : String) :
    getVersion true "7:1.2.3" = "1.2.3" ∧
    (':' ∉ p.data → getVersion true (p ++ ":" ++ r) = r) ∧
    (':' ∉ v.data → getVersion true v = v) ∧
    getVersion false v = v := by
  refine ⟨by decide, ?_, ?_, ?_⟩
  · intro hp
    have hd : (p ++ ":" ++ r).data = p.data ++ ':' :: r.data := by
      rw [String.data_append, String.data_append]
      simp
    unfold getVersion
    rw [if_neg, if_pos]
    · rw [hd, afterColon_append p.data r.data hp]
    · refine ⟨rfl, ?_⟩
      rw [hd]
      exact List.mem_append_right _ (List.mem_cons_self _ _)
    · intro h
      have := congrArg String.data h
      rw [hd] at this
      simp at this
  · intro hv
    unfold getVersion
    by_cases h0 : v = ""
    · simp [h0]
    · rw [if_neg h0, if_neg]
      intro h
      exact hv h.2
  · unfold getVersion
    by_cases h0 : v = ""
    · simp [h0]
    · rw [if_neg h0, if_neg]
      intro h
      exact Bool.false_ne_true h.1

/-- Witness for C9 at the concrete inputs of the spec's example. -/
theorem c9_witness :
    ':' ∉ ("7" : String).data ∧ ':' ∉ ("abc" : String).data ∧
    getVersion true ("7" ++ ":" ++ "1.2.3") = "1.2.3" ∧ getVersion true "abc" = "abc" :=
  ⟨by decide, by decide,
   (c9_epoch_stripping "7" "1.2.3" "abc").2.1 (by decide),
   (c9_epoch_stripping "7" "1.2.3" "abc").2.2.1 (by decide)⟩

/-- C7: with a tag-to-version pattern supplied, the resolved version of
a tag is capture group 1 of matching the pattern against the tag, a
non-matching tag is a fatal error (the TypeError raised by `None[1]`),
and without a pattern the tag is returned verbatim; the documented
example maps "v1.2.3" under `^v(.*)$` to "1.2.3". -/
theorem c7_tag_to_version_mapping (r : Re) (t : String) :
    normalizeTag none t = Except.ok (some t) ∧
    (pyMatch r t = none → normalizeTag (some r) t = Except.error PyErr.typeError) ∧
    (∀ g v, pyMatch r t = some g → groupLookup g 1 = some v →
      normalizeTag (some r) t = Except.ok (some v)) ∧
    normalizeTag (some reVCap) "v1.2.3" = Except.ok (some "1.2.3") := by
  refine ⟨rfl, ?_, ?_, rfl⟩
  · intro h
    simp [normalizeTag, h]
  · intro g v h1 h2
    simp [normalizeTag, h1, h2]

/-- Witness for C7: the pattern `^v(.*)$` does not match "x1", and the
mapper raises accordingly; it does match "v1.2.3" with group 1 equal
to "1.2.3". -/
theorem c7_witness :
    pyMatch reVCap "x1" = none ∧
    normalizeTag (some reVCap) "x1" = Except.error PyErr.typeError ∧
    pyMatch reVCap "v1.2.3" = some [(0, "v1.2.3"), (1, "1.2.3")] ∧
    normalizeTag (some reVCap) "v1.2.3" = Except.ok (some "1.2.3") :=
  ⟨rfl, (c7_tag_to_version_mapping reVCap "x1").2.1 rfl, rfl,
   (c7_tag_to_version_mapping reVCap "v1.2.3").2.2.2⟩

theorem consume_wait (n : Nat) :
    ∀ (l : List String), l.length ≤ n → ∀ a, a.wait_build = true →
      ∀ a2, consumeArgs l a = some a2 → a2.wait_build = true := by
  induction n with
  | zero =>
    intro l hl a ha a2 h
    rw [Nat.le_zero, List.length_eq_zero] at hl
    subst hl
    simp only [consumeArgs] at h
    rw [← Option.some_inj.mp h]
    exact ha
  | succ n ih =>
    intro l hl a ha a2 h
    cases l with
    | nil =>
      simp only [consumeArgs] at h
      rw [← Option.some_inj.mp h]
      exact ha
    | cons t rest =>
      simp only [List.length_cons, Nat.succ_le_succ_iff] at hl
      rw [consumeArgs.eq_def] at h
      simp only [] at h
      split_ifs at h <;>
        first
        | (cases rest with
            | nil => exact Option.noConfusion h
            | cons v rest2 =>
              refine ih rest2 ?_ _ ?_ _ h <;>
                first
                | (simp only [List.length_cons] at hl; omega)
                | exact ha)
        | (refine ih rest ?_ _ ?_ _ h <;> first | exact hl | exact ha | rfl)

/-- C10: every argument list the declared parser accepts yields
`wait_build = true` — the flag is `store_true` with default `True`, so
waiting can never be disabled from the command line. -/
theorem c10_wait_build_always_true (argv : List String) (a : Args)
    (h : parseArgs argv = some a) : a.wait_build = true := by
  unfold parseArgs at h
  cases hc : consumeArgs argv initArgs with
  | none =>
    rw [hc] at h
    exact Option.noConfusion h
  | some a1 =>
    rw [hc] at h
    dsimp only at h
    split_ifs at h
    rw [← Option.some_inj.mp h]
    exact consume_wait argv.length argv le_rfl initArgs rfl a1 hc

/-- Witness for C10: a minimal accepted command line. -/
theorem c10_witness :
    parseArgs ["--copr-owner-name", "o", "--copr-project-name", "p",
        "--copr-package-name", "k"] =
      some { owner_name := some "o", project_name := some "p", package_name := some "k",
             tag_to_version_re := none, tag := none, fetch_tags := false,
             clobber_assets := false, ignore_epoch := true, wait_build := true } ∧
    ({ owner_name := some "o", project_name := some "p", package_name := some "k",
       tag_to_version_re := none, tag := none, fetch_tags := false,
       clobber_assets := false, ignore_epoch := true, wait_build := true } : Args).wait_build =
      true :=
  ⟨by decide,
   c10_wait_build_always_true
     ["--copr-owner-name", "o", "--copr-project-name", "p", "--copr-package-name", "k"] _
     (by decide)⟩

/-- Concrete context: an explicitly supplied tag whose resolved version
has no artifact set. -/
def ctxC1 : MainCtx :=
  { tagArg := some "v9.9.9"
    clobber_assets := false
    tagToVersionRe := none
    tmpDir := "/tmp/work"
    versionFilesMap := [] }

/-- C1 (code evaluation at the failing input): `sys` is not among the
script's module-scope names, so when a single explicit tag was supplied
and its resolved version has no artifact set, the attempted
`sys.exit(100)` raises NameError instead of terminating with exit
status 100. -/
theorem c1_exit100_is_name_error :
    moduleScopeNames.contains "sys" = false ∧
    processTag ctxC1 (fun _ => ViewResult.success) "v9.9.9" =
      ([], TagResult.pyError (PyErr.nameError "sys")) ∧
    (processTag ctxC1 (fun _ => ViewResult.success) "v9.9.9").2 ≠ TagResult.exitCode 100 :=
  ⟨by decide, by decide, by decide⟩

/-- Concrete context with one resolvable version for the release-view
claims. -/
def ctxC4 : MainCtx :=
  { tagArg := none
    clobber_assets := false
    tagToVersionRe := none
    tmpDir := "/tmp/work"
    versionFilesMap := [("t1", [("f.rpm", "http://u/f.rpm")])] }

/-- C4 counterexample: a release-view failure whose captured output is
empty — output other than "release not found" — is not re-raised; the
run proceeds to create the release as if it did not exist. -/
theorem c4_empty_output_counterexample :
    ("" : String) ≠ "release not found" ∧
    releaseViewReraise "" = false ∧
    processTag ctxC4 (fun _ => ViewResult.failed "") "t1" =
      ([Effect.releaseView "t1", Effect.releaseCreate "t1",
        Effect.download "f.rpm" "http://u/f.rpm",
        Effect.releaseUpload "t1" ["/tmp/work/t1/f.rpm#f.rpm"]], TagResult.done) :=
  ⟨by decide, by decide, by decide⟩

/-- C4 amended: a release-view failure is treated as "release does not
exist" exactly when its output is empty (falsy) or strips to the text
"release not found"; every failure with any other non-empty output is
re-raised as fatal. -/
theorem c4_amended_view_error_classification (ctx : MainCtx) (t out v : String)
    (files : List (String × String))
    (hnorm : normalizeTag ctx.tagToVersionRe t = Except.ok (some v))
    (hfiles : alookup ctx.versionFilesMap v = some files) :
    ((out = "" ∨ pyStrip out = "release not found") →
      (processTag ctx (fun _ => ViewResult.failed out) t).2 = TagResult.done ∧
      Effect.releaseCreate t ∈ (processTag ctx (fun _ => ViewResult.failed out) t).1) ∧
    (out ≠ "" → pyStrip out ≠ "release not found" →
      processTag ctx (fun _ => ViewResult.failed out) t =
        ([Effect.releaseView t], TagResult.pyError (PyErr.reraisedProcessError out))) := by
  constructor
  · intro hout
    have hr : releaseViewReraise out = false := by
      simp only [releaseViewReraise, decide_eq_false_iff_not]
      rintro ⟨h1, h2⟩
      cases hout with
      | inl h => exact h1 h
      | inr h => exact h2 h
    simp [processTag, hnorm, hfiles, hr]
  · intro h1 h2
    have hr : releaseViewReraise out = true := by
      simp [releaseViewReraise, h1, h2]
    simp [processTag, hnorm, hfiles, hr]

/-- Witness for the amended C4 at concrete inputs: the non-empty output
"boom" is re-raised, while an output stripping to "release not found"
leads to release creation. -/
theorem c4_amended_witness :
    (processTag ctxC4 (fun _ => ViewResult.failed "boom") "t1" =
      ([Effect.releaseView "t1"], TagResult.pyError (PyErr.reraisedProcessError "boom"))) ∧
    ((processTag ctxC4 (fun _ => ViewResult.failed "release not found") "t1").2 =
        TagResult.done ∧
      Effect.releaseCreate "t1" ∈
        (processTag ctxC4 (fun _ => ViewResult.failed "release not found") "t1").1) :=
  ⟨(c4_amended_view_error_classification ctxC4 "t1" "boom" "t1"
      [("f.rpm", "http://u/f.rpm")] rfl (by decide)).2 (by decide) (by decide),
   (c4_amended_view_error_classification ctxC4 "t1" "release not found" "t1"
      [("f.rpm", "http://u/f.rpm")] rfl (by decide)).1 (Or.inr (by decide))⟩

/-- C8: when the release-view probe reports an existing release and
clobbering is not requested, processing the tag makes no download and
no upload call. -/
theorem c8_existing_release_no_upload (ctx : MainCtx) (view : String → ViewResult)
    (t : String) (hclob : ctx.clobber_assets = false)
    (hview : view t = ViewResult.success) :
    ∀ e ∈ (processTag ctx view t).1, e.isDownload = false ∧ e.isUpload = false := by
  intro e he
  unfold processTag at he
  cases hn : normalizeTag ctx.tagToVersionRe t with
  | error err => rw [hn] at he; simp at he
  | ok rv =>
    rw [hn] at he
    dsimp only at he
    cases rv with
    | none => simp at he
    | some v =>
      dsimp only at he
      cases hf : alookup ctx.versionFilesMap v with
      | none => rw [hf] at he; simp at he
      | some files =>
        rw [hf] at he
        dsimp only at he
        rw [hview] at he
        dsimp only at he
        rw [hclob] at he
        simp at he
        subst he
        exact ⟨rfl, rfl⟩

/-- Concrete context for the C8 witness. -/
def ctxC8 : MainCtx :=
  { tagArg := none
    clobber_assets := false
    tagToVersionRe := none
    tmpDir := "/tmp/work"
    versionFilesMap := [("t2", [("g.rpm", "http://u/g.rpm")])] }

/-- Witness for C8 at a concrete run with an existing release. -/
theorem c8_witness :
    ctxC8.clobber_assets = false ∧
    ∀ e ∈ (processTag ctxC8 (fun _ => ViewResult.success) "t2").1,
      e.isDownload = false ∧ e.isUpload = false :=
  ⟨rfl, c8_existing_release_no_upload ctxC8 (fun _ => ViewResult.success) "t2" rfl rfl⟩

theorem setAdd_nodup (files : List (String × String)) (p : String × String)
    (h : files.Nodup) : (setAdd files p).Nodup := by
  unfold setAdd
  split_ifs with hp
  · exact h
  · rw [List.nodup_append]
    refine ⟨h, List.nodup_singleton p, fun a ha hb => ?_⟩
    simp only [List.mem_singleton] at hb
    subst hb
    exact hp ha

theorem foldl_nodup_preserved {α : Type} (f : List (String × String) → α → List (String × String))
    (hf : ∀ st x, st.Nodup → (f st x).Nodup) (l : List α) :
    ∀ st, st.Nodup → (l.foldl f st).Nodup := by
  induction l with
  | nil => intro st h; exact h
  | cons x xs ih => intro st h; exact ih _ (hf st x h)

theorem foldl_all_preserved {α β : Type} (f : List β → α → List β) (P : β → Prop)
    (hf : ∀ st x p, (∀ q ∈ st, P q) → p ∈ f st x → P p) (l : List α) :
    ∀ st, (∀ q ∈ st, P q) → ∀ p ∈ l.foldl f st, P p := by
  induction l with
  | nil => intro st h p hp; exact h p hp
  | cons x xs ih =>
    intro st h p hp
    exact ih (f st x) (fun q hq => hf st x q h hq) p hp

theorem alookup_mem {β : Type} (l : List (String × β)) (k : String) (v : β)
    (h : alookup l k = some v) : (k, v) ∈ l := by
  induction l with
  | nil => exact Option.noConfusion h
  | cons kv rest ih =>
    cases kv with
    | mk k1 v1 =>
      simp only [alookup] at h
      split_ifs at h with he
      · subst he
        rw [← Option.some_inj.mp h]
        exact List.mem_cons_self _ _
      · exact List.mem_cons_of_mem _ (ih h)

theorem versionFiles_entry_nodup (exi : String → Bool)
    (manifest : BuildRecord → String → List BuildResult) (bmData : BMap) :
    ∀ p ∈ versionFiles exi manifest bmData, p.2.Nodup := by
  unfold versionFiles
  refine foldl_all_preserved _ (fun p : String × List (String × String) => p.2.Nodup) ?_ bmData [] (by simp)
  intro st kb p hst hp
  by_cases hfe :
      kb.2.foldl
        (fun files ab =>
          (manifest ab.2 ab.1).foldl
            (fun files r =>
              if r.arch = "src" then files
              else if exi (getArchUrl ab.2 ab.1 r).2 = true then
                setAdd files (getArchUrl ab.2 ab.1 r)
              else files)
            (setAdd files (pyBasename ab.2.source_rpm, ab.2.source_rpm)))
        [] = []
  · rw [if_pos hfe] at hp
    exact hst p hp
  · rw [if_neg hfe] at hp
    rcases List.mem_append.mp hp with hin | hone
    · exact hst p hin
    · simp only [List.mem_singleton] at hone
      subst hone
      refine foldl_nodup_preserved _ ?_ kb.2 [] List.nodup_nil
      intro files ab hfiles
      refine foldl_nodup_preserved _ ?_ (manifest ab.2 ab.1) _
        (setAdd_nodup _ _ hfiles)
      intro f2 r h2
      split_ifs
      · exact h2
      · exact setAdd_nodup _ _ h2
      · exact h2

/-- C3 amended: each version's artifact set is a Python set of
(filename, URL) pairs — it never contains a duplicate pair, but the
deduplication key is the whole pair, not the filename alone. -/
theorem c3_amended_pairs_nodup (exi : String → Bool)
    (manifest : BuildRecord → String → List BuildResult) (bmData : BMap)
    (v : String) (s : List (String × String))
    (h : alookup (versionFiles exi manifest bmData) v = some s) : s.Nodup :=
  versionFiles_entry_nodup exi manifest bmData (v, s) (alookup_mem _ _ _ h)

/-- The constantly-true reachability oracle used by the concrete runs. -/
def exiTrue : String → Bool := fun _ => true

/-- Configuration used by the concrete collector runs. -/
def cfgC3 : Config := { package_name := "mypkg", ignore_epoch := true, wait_build := true }

/-- A completed build of version 1.0 built for one architecture. -/
def bC3a : Build :=
  { id := 1
    state := "succeeded"
    source_package := { name := "mypkg", version := "1.0", url := "http://cp/b1/pkg-1.0-1.src.rpm" }
    ended_on := some 10
    chroots := ["fedora-39-x86_64"]
    repo_url := "http://cp/results" }

/-- A second completed build of the same version for another
architecture: its source package has the same filename as the first
build's, at a different (per-build) URL. -/
def bC3b : Build :=
  { id := 2
    state := "succeeded"
    source_package := { name := "mypkg", version := "1.0", url := "http://cp/b2/pkg-1.0-1.src.rpm" }
    ended_on := some 20
    chroots := ["fedora-39-aarch64"]
    repo_url := "http://cp/results" }

/-- The collector output reached from those two builds. -/
def mC3 : BMap :=
  [("1.0",
    [("fedora-39-x86_64", mkRecord true bC3a), ("fedora-39-aarch64", mkRecord true bC3b)])]

/-- C3 counterexample: on a reachable collector output (two retained
builds of one version whose source packages share a filename), the
artifact set for version 1.0 holds two entries with the same filename
and different URLs — the set is not deduplicated by filename. -/
theorem c3_filename_dedup_counterexample :
    getBuilds cfgC3 exiTrue [[bC3a, bC3b]] = some (mC3, [bC3a, bC3b]) ∧
    alookup (versionFiles exiTrue (fun _ _ => []) mC3) "1.0" =
      some [("pkg-1.0-1.src.rpm", "http://cp/b1/pkg-1.0-1.src.rpm"),
            ("pkg-1.0-1.src.rpm", "http://cp/b2/pkg-1.0-1.src.rpm")] ∧
    ("http://cp/b1/pkg-1.0-1.src.rpm" : String) ≠ "http://cp/b2/pkg-1.0-1.src.rpm" :=
  ⟨by decide, by decide, by decide⟩

/-- Witness for the amended C3 at the same concrete inputs. -/
theorem c3_amended_witness :
    alookup (versionFiles exiTrue (fun _ _ => []) mC3) "1.0" =
      some [("pkg-1.0-1.src.rpm", "http://cp/b1/pkg-1.0-1.src.rpm"),
            ("pkg-1.0-1.src.rpm", "http://cp/b2/pkg-1.0-1.src.rpm")] ∧
    ([("pkg-1.0-1.src.rpm", "http://cp/b1/pkg-1.0-1.src.rpm"),
      ("pkg-1.0-1.src.rpm", "http://cp/b2/pkg-1.0-1.src.rpm")] :
        List (String × String)).Nodup :=
  ⟨by decide,
   c3_amended_pairs_nodup exiTrue (fun _ _ => []) mC3 "1.0" _ (by decide)⟩

/-- A completed build of version 1.0 present in the first listing
response. -/
def bC2a : Build :=
  { id := 11
    state := "succeeded"
    source_package := { name := "mypkg", version := "1.0", url := "http://cp/c1/pkg-1.0-1.src.rpm" }
    ended_on := some 10
    chroots := ["fedora-39-x86_64"]
    repo_url := "http://cp/results" }

/-- A pending build, triggering the wait-and-retry branch. -/
def bC2p : Build :=
  { id := 12
    state := "pending"
    source_package := { name := "mypkg", version := "1.1", url := "http://cp/c2/pkg-1.1-1.src.rpm" }
    ended_on := none
    chroots := ["fedora-39-x86_64"]
    repo_url := "http://cp/results" }

/-- The only build of the second listing response (the first build has
disappeared from the list; the pending one completed as 2.0). -/
def bC2b : Build :=
  { id := 12
    state := "succeeded"
    source_package := { name := "mypkg", version := "2.0", url := "http://cp/c2/pkg-2.0-1.src.rpm" }
    ended_on := some 20
    chroots := ["fedora-39-x86_64"]
    repo_url := "http://cp/results" }

/-- The collector output of that two-iteration run. -/
def mC2 : BMap :=
  [("1.0", [("fedora-39-x86_64", mkRecord true bC2a)]),
   ("2.0", [("fedora-39-x86_64", mkRecord true bC2b)])]

/-- C2 counterexample: with waiting configured, a run whose first scan
accepts a build and then hits a pending one retains that build across
the retry — the final mapping differs from a single fresh scan over the
last fetched build list, so partial progress is retained. -/
theorem c2_not_fresh_rescan_counterexample :
    cfgC3.wait_build = true ∧
    getBuilds cfgC3 exiTrue [[bC2a, bC2p], [bC2b]] = some (mC2, [bC2b]) ∧
    (scanBuilds cfgC3 exiTrue [bC2b] []).1 ≠ mC2 :=
  ⟨rfl, by decide, by decide⟩

/-- C2 amended: on each retry the scan restarts from the beginning of
the freshly fetched build list, but the accumulated mapping is not
reset — the final mapping is the last fetched list scanned on top of
the metadata accumulated by the earlier iterations (the state `stPre`
below), not on top of the empty map. -/
theorem c2_amended_scan_resumes_from_accumulated (cfg : Config) (exi : String → Bool)
    (fetches : List (List Build)) (st0 m : BMap) (lastFetch : List Build)
    (h : getBuildsLoop cfg exi fetches st0 = some (m, lastFetch)) :
    ∃ stPre, scanBuilds cfg exi lastFetch stPre = (m, false) := by
  induction fetches generalizing st0 with
  | nil => exact absurd h (by simp [getBuildsLoop])
  | cons f rest ih =>
    rw [getBuildsLoop] at h
    cases hsb : scanBuilds cfg exi f st0 with
    | mk st2 retryFlag =>
      rw [hsb] at h
      cases retryFlag with
      | true =>
        dsimp only at h
        exact ih st2 h
      | false =>
        dsimp only at h
        rw [Option.some_inj, Prod.ext_iff] at h
        simp only at h
        rw [← h.1, ← h.2]
        exact ⟨st0, hsb⟩

/-- Witness for the amended C2 at the concrete two-iteration run. -/
theorem c2_amended_witness :
    getBuildsLoop cfgC3 exiTrue [[bC2a, bC2p], [bC2b]] [] = some (mC2, [bC2b]) ∧
    ∃ stPre, scanBuilds cfgC3 exiTrue [bC2b] stPre = (mC2, false) :=
  ⟨by decide,
   c2_amended_scan_resumes_from_accumulated cfgC3 exiTrue [[bC2a, bC2p], [bC2b]] [] mC2
     [bC2b] (by decide)⟩

def combineBR (ex2 : Option BuildRecord) (bm : BuildRecord) : BuildRecord :=
  match ex2 with
  | none => bm
  | some ex => if ex.ended_on < bm.ended_on then bm else ex

theorem alookup_updAssoc {β : Type} (m : List (String × β)) (key k : String) (dflt : β)
    (f : β → β) :
    alookup (updAssoc m key dflt f) k =
      if key = k then some (f ((alookup m key).getD dflt)) else alookup m k := by
  induction m with
  | nil =>
    simp only [updAssoc, alookup]
    split_ifs with h1 <;> rfl
  | cons kv rest ih =>
    cases kv with
    | mk k1 v1 =>
      by_cases h1 : k1 = key
      · subst h1
        rw [updAssoc, if_pos rfl]
        by_cases h2 : k1 = k
        · rw [alookup, if_pos h2, if_pos h2, alookup, if_pos rfl]
          rfl
        · rw [alookup, if_neg h2, if_neg h2, alookup, if_neg h2]
      · rw [updAssoc, if_neg h1]
        by_cases h2 : k1 = k
        · subst h2
          rw [alookup, if_pos rfl, if_neg (fun h => h1 h.symm), alookup, if_pos rfl]
        · rw [alookup, if_neg h2, ih, alookup, if_neg h1]
          by_cases h3 : key = k
          · rw [if_pos h3, if_pos h3]
          · rw [if_neg h3, if_neg h3, alookup, if_neg h2]

theorem alookup_setdefaultMax (va : ArchMap) (arch : String) (bm : BuildRecord) (a : String) :
    alookup (setdefaultMax va arch bm) a =
      if arch = a then some (combineBR (alookup va arch) bm) else alookup va a := by
  induction va with
  | nil =>
    simp [setdefaultMax, alookup, combineBR]
  | cons kv rest ih =>
    cases kv with
    | mk a1 r1 =>
      by_cases h1 : a1 = arch
      · subst h1
        rw [setdefaultMax, if_pos rfl]
        by_cases h2 : a1 = a
        · rw [alookup, if_pos h2, if_pos h2, alookup, if_pos rfl]
          rfl
        · rw [alookup, if_neg h2, if_neg h2, alookup, if_neg h2]
      · rw [setdefaultMax, if_neg h1]
        by_cases h2 : a1 = a
        · subst h2
          rw [alookup, if_pos rfl, if_neg (fun h => h1 h.symm), alookup, if_pos rfl]
        · rw [alookup, if_neg h2, ih, alookup, if_neg h1]
          by_cases h3 : arch = a
          · rw [if_pos h3, if_pos h3]
          · rw [if_neg h3, if_neg h3, alookup, if_neg h2]

theorem combineBR_idem (ex2 : Option BuildRecord) (bm : BuildRecord) :
    combineBR (some (combineBR ex2 bm)) bm = combineBR ex2 bm := by
  cases ex2 with
  | none => simp [combineBR]
  | some ex =>
    simp only [combineBR]
    by_cases h : ex.ended_on < bm.ended_on
    · rw [if_pos h]
      simp
    · rw [if_neg h, if_neg h]

theorem alookup_foldl_sdm (arches : List String) (va : ArchMap) (bm : BuildRecord)
    (a : String) :
    alookup (arches.foldl (fun va x => setdefaultMax va x bm) va) a =
      if a ∈ arches then some (combineBR (alookup va a) bm) else alookup va a := by
  induction arches generalizing va with
  | nil => simp
  | cons x rest ih =>
    simp only [List.foldl_cons]
    rw [ih]
    simp only [alookup_setdefaultMax]
    by_cases hx : x = a <;> by_cases hr : a ∈ rest
    · simp [hx, hr, combineBR_idem]
    · simp [hx, hr]
    · simp [hx, hr]
    · simp [hx, hr, Ne.symm hx]

theorem lookup2_insertArches (st : BMap) (ver : String) (arches : List String)
    (bm : BuildRecord) (v a : String) :
    lookup2 (insertArches st ver arches bm) v a =
      if ver = v ∧ a ∈ arches then some (combineBR (lookup2 st v a) bm)
      else lookup2 st v a := by
  unfold insertArches lookup2
  rw [alookup_updAssoc]
  by_cases hv : ver = v
  · subst hv
    rw [if_pos rfl]
    cases hst : alookup st ver with
    | none =>
      simp only [Option.getD_none]
      rw [alookup_foldl_sdm]
      by_cases ha : a ∈ arches <;> simp [ha, alookup]
    | some va =>
      simp only [Option.getD_some]
      rw [alookup_foldl_sdm]
      by_cases ha : a ∈ arches <;> simp [ha]
  · rw [if_neg hv, if_neg (fun h => hv h.1)]

def insRecord (cfg : Config) (st : BMap) (b : Build) : BMap :=
  insertArches st (mkRecord cfg.ignore_epoch b).version b.chroots (mkRecord cfg.ignore_epoch b)

theorem scanBuilds_as_foldl (cfg : Config) (exi : String → Bool) (bs : List Build) :
    ∀ st, (scanBuilds cfg exi bs st).1 =
      (scanAccepted cfg exi bs).foldl (insRecord cfg) st := by
  induction bs with
  | nil => intro st; rfl
  | cons b rest ih =>
    intro st
    simp only [scanBuilds, scanAccepted]
    split_ifs with h1 h2 h3 h4 h5
    · exact ih st
    · exact ih st
    · rfl
    · exact ih st
    · exact ih st
    · simp only [List.foldl_cons]
      exact ih (insRecord cfg st b)

theorem scanBuilds_snd (cfg : Config) (exi : String → Bool) (bs : List Build) :
    ∀ st, (scanBuilds cfg exi bs st).2 = scanRetry cfg bs := by
  induction bs with
  | nil => intro st; rfl
  | cons b rest ih =>
    intro st
    simp only [scanBuilds, scanRetry]
    split_ifs with h1 h2 h3 h4 h5
    · exact ih st
    · exact ih st
    · rfl
    · exact ih st
    · exact ih st
    · exact ih (insRecord cfg st b)

theorem scanAccepted_mem (cfg : Config) (exi : String → Bool) (bs : List Build) (b : Build)
    (hb : b ∈ scanAccepted cfg exi bs) :
    b.state ≠ "failed" ∧ skipByName cfg b = false ∧ nonTerminalBuild b = false ∧
      exi b.source_package.url = true := by
  induction bs with
  | nil => exact absurd hb (List.not_mem_nil b)
  | cons b1 rest ih =>
    simp only [scanAccepted] at hb
    split_ifs at hb with h1 h2 h3 h4 h5
    · exact ih hb
    · exact ih hb
    · exact absurd hb (List.not_mem_nil b)
    · exact ih hb
    · exact ih hb
    · rcases List.mem_cons.mp hb with he | he
      · subst he
        refine ⟨h1, Bool.eq_false_iff.mpr h2, Bool.eq_false_iff.mpr h3, ?_⟩
        cases hex : exi b.source_package.url with
        | true => rfl
        | false => exact absurd hex h5
      · exact ih he

def RetainedFrom (cfg : Config) (acc : List Build) (v a : String) (bm : BuildRecord) : Prop :=
  (∃ b ∈ acc, bm = mkRecord cfg.ignore_epoch b ∧ v = bm.version ∧ a ∈ b.chroots) ∧
  ∀ b2 ∈ acc, (mkRecord cfg.ignore_epoch b2).version = v → a ∈ b2.chroots →
    (mkRecord cfg.ignore_epoch b2).ended_on ≤ bm.ended_on

def InvMap (cfg : Config) (acc : List Build) (st : BMap) : Prop :=
  (∀ v a bm, lookup2 st v a = some bm → RetainedFrom cfg acc v a bm) ∧
  ∀ b ∈ acc, ∀ a ∈ b.chroots,
    (lookup2 st (mkRecord cfg.ignore_epoch b).version a).isSome = true

theorem InvMap_insert (cfg : Config) (acc : List Build) (st : BMap) (b : Build)
    (h : InvMap cfg acc st) : InvMap cfg (acc ++ [b]) (insRecord cfg st b) := by
  constructor
  · intro v a bm hbm
    unfold insRecord at hbm
    rw [lookup2_insertArches] at hbm
    by_cases hc : (mkRecord cfg.ignore_epoch b).version = v ∧ a ∈ b.chroots
    · rw [if_pos hc] at hbm
      have hbm2 := Option.some_inj.mp hbm
      cases hex : lookup2 st v a with
      | none =>
        rw [hex] at hbm2
        have hbmr : bm = mkRecord cfg.ignore_epoch b := by rw [← hbm2]; rfl
        constructor
        · exact ⟨b, List.mem_append_right _ (List.mem_cons_self _ _), hbmr,
            by rw [hbmr]; exact hc.1.symm, hc.2⟩
        · intro b2 hb2 hv2 ha2
          rcases List.mem_append.mp hb2 with hin | hone
          · exfalso
            have hsome := h.2 b2 hin a ha2
            rw [hv2, hex] at hsome
            exact Bool.false_ne_true hsome
          · have hbe : b2 = b := by simpa using hone
            subst hbe
            rw [hbmr]
      | some ex =>
        rw [hex] at hbm2
        have hold := h.1 v a ex hex
        by_cases hlt : ex.ended_on < (mkRecord cfg.ignore_epoch b).ended_on
        · have hbmr : bm = mkRecord cfg.ignore_epoch b := by
            rw [← hbm2]
            simp [combineBR, hlt]
          constructor
          · exact ⟨b, List.mem_append_right _ (List.mem_cons_self _ _), hbmr,
              by rw [hbmr]; exact hc.1.symm, hc.2⟩
          · intro b2 hb2 hv2 ha2
            rcases List.mem_append.mp hb2 with hin | hone
            · calc (mkRecord cfg.ignore_epoch b2).ended_on
                  ≤ ex.ended_on := hold.2 b2 hin hv2 ha2
                _ ≤ bm.ended_on := by rw [hbmr]; exact Nat.le_of_lt hlt
            · have hbe : b2 = b := by simpa using hone
              subst hbe
              rw [hbmr]
        · have hbmr : bm = ex := by
            rw [← hbm2]
            simp [combineBR, hlt]
          constructor
          · rcases hold.1 with ⟨b0, hb0, he0, hv0, ha0⟩
            exact ⟨b0, List.mem_append_left _ hb0, by rw [hbmr]; exact he0,
              by rw [hbmr]; exact hv0, ha0⟩
          · intro b2 hb2 hv2 ha2
            rcases List.mem_append.mp hb2 with hin | hone
            · rw [hbmr]
              exact hold.2 b2 hin hv2 ha2
            · have hbe : b2 = b := by simpa using hone
              subst hbe
              rw [hbmr]
              exact Nat.le_of_not_lt hlt
    · rw [if_neg hc] at hbm
      have hold := h.1 v a bm hbm
      constructor
      · rcases hold.1 with ⟨b0, hb0, he0, hv0, ha0⟩
        exact ⟨b0, List.mem_append_left _ hb0, he0, hv0, ha0⟩
      · intro b2 hb2 hv2 ha2
        rcases List.mem_append.mp hb2 with hin | hone
        · exact hold.2 b2 hin hv2 ha2
        · have hbe : b2 = b := by simpa using hone
          subst hbe
          exact absurd ⟨hv2, ha2⟩ hc
  · intro b2 hb2 a ha2
    unfold insRecord
    rw [lookup2_insertArches]
    rcases List.mem_append.mp hb2 with hin | hone
    · by_cases hc : (mkRecord cfg.ignore_epoch b).version =
          (mkRecord cfg.ignore_epoch b2).version ∧ a ∈ b.chroots
      · rw [if_pos hc]
        rfl
      · rw [if_neg hc]
        exact h.2 b2 hin a ha2
    · have hbe : b2 = b := by simpa using hone
      subst hbe
      rw [if_pos ⟨rfl, ha2⟩]
      rfl

theorem InvMap_foldl (cfg : Config) (bs : List Build) :
    ∀ acc st, InvMap cfg acc st → InvMap cfg (acc ++ bs) (bs.foldl (insRecord cfg) st) := by
  induction bs with
  | nil =>
    intro acc st h
    simpa using h
  | cons b rest ih =>
    intro acc st h
    have h2 := ih (acc ++ [b]) (insRecord cfg st b) (InvMap_insert cfg acc st b h)
    rw [List.append_assoc] at h2
    simpa using h2

theorem InvMap_scan (cfg : Config) (exi : String → Bool) (bs : List Build)
    (acc : List Build) (st : BMap) (h : InvMap cfg acc st) :
    InvMap cfg (acc ++ scanAccepted cfg exi bs) ((scanBuilds cfg exi bs st).1) := by
  rw [scanBuilds_as_foldl]
  exact InvMap_foldl cfg (scanAccepted cfg exi bs) acc st h

theorem InvMap_loop (cfg : Config) (exi : String → Bool) (fetches : List (List Build)) :
    ∀ acc st m L, InvMap cfg acc st →
      getBuildsLoop cfg exi fetches st = some (m, L) →
      InvMap cfg (acc ++ loopAccepted cfg exi fetches) m := by
  induction fetches with
  | nil =>
    intro acc st m L h hl
    exact absurd hl (by simp [getBuildsLoop])
  | cons f rest ih =>
    intro acc st m L h hl
    rw [getBuildsLoop] at hl
    cases hsb : scanBuilds cfg exi f st with
    | mk st2 retryFlag =>
      rw [hsb] at hl
      have hstep : InvMap cfg (acc ++ scanAccepted cfg exi f) st2 := by
        have h2 := InvMap_scan cfg exi f acc st h
        rw [hsb] at h2
        exact h2
      have hr : retryFlag = scanRetry cfg f := by
        rw [← scanBuilds_snd cfg exi f st, hsb]
      cases retryFlag with
      | true =>
        dsimp only at hl
        have h3 := ih (acc ++ scanAccepted cfg exi f) st2 m L hstep hl
        rw [List.append_assoc] at h3
        rw [loopAccepted, ← hr]
        simpa using h3
      | false =>
        dsimp only at hl
        rw [Option.some_inj, Prod.ext_iff] at hl
        simp only at hl
        rw [loopAccepted, ← hr]
        simp only [Bool.false_eq_true, if_false, List.append_nil]
        rw [← hl.1]
        exact hstep

theorem loopAccepted_mem (cfg : Config) (exi : String → Bool)
    (fetches : List (List Build)) (b : Build) (hb : b ∈ loopAccepted cfg exi fetches) :
    b.state ≠ "failed" ∧ skipByName cfg b = false ∧ nonTerminalBuild b = false ∧
      exi b.source_package.url = true := by
  induction fetches with
  | nil => exact absurd hb (List.not_mem_nil b)
  | cons f rest ih =>
    rw [loopAccepted] at hb
    rcases List.mem_append.mp hb with hin | hif
    · exact scanAccepted_mem cfg exi f b hin
    · by_cases hr : scanRetry cfg f = true
      · rw [if_pos hr] at hif
        exact ih hif
      · rw [if_neg hr] at hif
        exact absurd hif (List.not_mem_nil b)

theorem InvMap_empty (cfg : Config) : InvMap cfg [] [] := by
  constructor
  · intro v a bm h
    exact absurd h (by simp [lookup2, alookup])
  · intro b hb
    exact absurd hb (List.not_mem_nil b)

/-- C6: every record in the collector's output map lies under its own
version key for an architecture it was built for, comes from an
accepted build of the run, and its ended_on is maximal among all
accepted builds of that (version, architecture) pair. -/
theorem c6_retained_is_latest_ended (cfg : Config) (exi : String → Bool) (fetches : List (List Build))
    (m : BMap) (lastFetch : List Build) (v a : String) (bm : BuildRecord)
    (h1 : getBuilds cfg exi fetches = some (m, lastFetch))
    (h2 : lookup2 m v a = some bm) :
    (∃ b ∈ loopAccepted cfg exi fetches, bm = mkRecord cfg.ignore_epoch b ∧
        v = bm.version ∧ a ∈ b.chroots) ∧
    ∀ b2 ∈ loopAccepted cfg exi fetches, (mkRecord cfg.ignore_epoch b2).version = v →
      a ∈ b2.chroots → (mkRecord cfg.ignore_epoch b2).ended_on ≤ bm.ended_on := by
  have hinv := InvMap_loop cfg exi fetches [] [] m lastFetch (InvMap_empty cfg) h1
  rw [List.nil_append] at hinv
  exact hinv.1 v a bm h2

/-- C5 amended: every retained record comes from an accepted build
whose state is not "failed", and its package name is either empty
(falsy, unfiltered by the walrus check) or equal to the configured
package name; a build with a non-empty name different from the
configured one is never retained. -/
theorem c5_amended_retained_filters (cfg : Config) (exi : String → Bool) (fetches : List (List Build))
    (m : BMap) (lastFetch : List Build) (v a : String) (bm : BuildRecord)
    (h1 : getBuilds cfg exi fetches = some (m, lastFetch))
    (h2 : lookup2 m v a = some bm) :
    (bm.package_name = "" ∨ bm.package_name = cfg.package_name) ∧
    ∃ b ∈ loopAccepted cfg exi fetches, bm = mkRecord cfg.ignore_epoch b ∧
      b.state ≠ "failed" := by
  have hinv := InvMap_loop cfg exi fetches [] [] m lastFetch (InvMap_empty cfg) h1
  rw [List.nil_append] at hinv
  obtain ⟨⟨b, hb, hbm, hv, ha⟩, _⟩ := hinv.1 v a bm h2
  have hprops := loopAccepted_mem cfg exi fetches b hb
  constructor
  · have hname : bm.package_name = b.source_package.name := by rw [hbm]; rfl
    rw [hname]
    have hskip := hprops.2.1
    simp only [skipByName, decide_eq_false_iff_not] at hskip
    by_cases he : b.source_package.name = ""
    · exact Or.inl he
    · by_cases hp : b.source_package.name = cfg.package_name
      · exact Or.inr hp
      · exact absurd ⟨he, hp⟩ hskip
  · exact ⟨b, hb, hbm, hprops.1⟩

/-- A completed build whose source package name is empty (JSON null):
the walrus filter does not skip it. -/
def bC5 : Build :=
  { id := 21
    state := "succeeded"
    source_package := { name := "", version := "3.0", url := "http://cp/d1/x-3.0-1.src.rpm" }
    ended_on := some 30
    chroots := ["fedora-39-x86_64"]
    repo_url := "http://cp/results" }

/-- C5 counterexample: a build with an empty (falsy) package name — a
name different from the configured "mypkg" — is retained in the
collector's output. -/
theorem c5_falsy_name_counterexample :
    getBuilds cfgC3 exiTrue [[bC5]] =
      some ([("3.0", [("fedora-39-x86_64", mkRecord true bC5)])], [bC5]) ∧
    lookup2 [("3.0", [("fedora-39-x86_64", mkRecord true bC5)])] "3.0" "fedora-39-x86_64" =
      some (mkRecord true bC5) ∧
    (mkRecord true bC5).package_name = "" ∧
    (mkRecord true bC5).package_name ≠ cfgC3.package_name :=
  ⟨by decide, by decide, by decide, by decide⟩

/-- Witness for the amended C5 at the concrete empty-name run. -/
theorem c5_amended_witness :
    lookup2 [("3.0", [("fedora-39-x86_64", mkRecord true bC5)])] "3.0" "fedora-39-x86_64" =
      some (mkRecord true bC5) ∧
    (((mkRecord true bC5).package_name = "" ∨
        (mkRecord true bC5).package_name = cfgC3.package_name) ∧
      ∃ b ∈ loopAccepted cfgC3 exiTrue [[bC5]],
        mkRecord true bC5 = mkRecord cfgC3.ignore_epoch b ∧ b.state ≠ "failed") :=
  ⟨by decide,
   c5_amended_retained_filters cfgC3 exiTrue [[bC5]]
     [("3.0", [("fedora-39-x86_64", mkRecord true bC5)])] [bC5] "3.0" "fedora-39-x86_64"
     (mkRecord true bC5) (by decide) (by decide)⟩

/-- An accepted build of version 5.0 that ended earlier. -/
def bC6a : Build :=
  { id := 31
    state := "succeeded"
    source_package := { name := "mypkg", version := "5.0", url := "http://cp/e1/pkg-5.0-1.src.rpm" }
    ended_on := some 50
    chroots := ["fedora-39-x86_64"]
    repo_url := "http://cp/results" }

/-- A later build of the same version and architecture. -/
def bC6b : Build :=
  { id := 32
    state := "succeeded"
    source_package := { name := "mypkg", version := "5.0", url := "http://cp/e2/pkg-5.0-2.src.rpm" }
    ended_on := some 60
    chroots := ["fedora-39-x86_64"]
    repo_url := "http://cp/results" }

/-- The collector output of the two-build run: the later record wins. -/
def mC6 : BMap := [("5.0", [("fedora-39-x86_64", mkRecord true bC6b)])]

/-- Witness for C6 at the concrete run with two builds of one
(version, architecture) pair. -/
theorem c6_witness :
    getBuilds cfgC3 exiTrue [[bC6a, bC6b]] = some (mC6, [bC6a, bC6b]) ∧
    lookup2 mC6 "5.0" "fedora-39-x86_64" = some (mkRecord true bC6b) ∧
    ((∃ b ∈ loopAccepted cfgC3 exiTrue [[bC6a, bC6b]],
        mkRecord true bC6b = mkRecord cfgC3.ignore_epoch b ∧
        "5.0" = (mkRecord true bC6b).version ∧ "fedora-39-x86_64" ∈ b.chroots) ∧
      ∀ b2 ∈ loopAccepted cfgC3 exiTrue [[bC6a, bC6b]],
        (mkRecord cfgC3.ignore_epoch b2).version = "5.0" →
        "fedora-39-x86_64" ∈ b2.chroots →
        (mkRecord cfgC3.ignore_epoch b2).ended_on ≤ (mkRecord true bC6b).ended_on) :=
  ⟨by decide, by decide,
   c6_retained_is_latest_ended cfgC3 exiTrue [[bC6a, bC6b]] mC6 [bC6a, bC6b] "5.0"
     "fedora-39-x86_64" (mkRecord true bC6b) (by decide) (by decide)⟩
